import Mathlib

/-!
# universal-panel, `services/db_access`: process bootstrap and schema detection

Part I embeds `services/db_access/main.go` as an explicit state-passing program
over a `Process` record that logs every effect `main` performs, in order.

Part II models the Schema Inference Engine (`DetectSchema`) from the words of
the specification; its code is not among the sources embedded here.
-/

namespace UniversalPanel

/-! ## Part I: `main.go` -/

/-- The three `cors.Config` fields that `main` assigns (gin-contrib/cors). -/
structure CorsConfig where
  AllowOrigins : List String
  AllowMethods : List String
  AllowHeaders : List String
  deriving DecidableEq, Repr

/-- A handler in the router's middleware chain. -/
inductive Middleware where
  | logger
  | recovery
  | cors (cfg : CorsConfig)
  deriving DecidableEq, Repr

/-- An observable effect of `main`, in program order. -/
inductive Effect where
  /-- Call of `configs.InitEnvConfigs()`. -/
  | initEnvConfigs
  /-- Read of `configs.Env.Port`, with the value read. -/
  | readEnvPort (value : String)
  /-- Call of `gin.Default()`. -/
  | ginDefault
  /-- Call of `router.Use(mw)`. -/
  | routerUse (mw : Middleware)
  /-- Call of `routes.SetupRoutes(router)`, with the handler chain the router
  holds at the call: the chain every route registered by the call is put behind. -/
  | setupRoutes (chain : List Middleware)
  /-- Text written to standard output by `fmt.Printf` or `fmt.Println`. -/
  | stdout (text : String)
  /-- Call of `router.Run(addr)`. -/
  | routerRun (addr : String)
  /-- Call of `log.Fatalf`, with the formatted message (the process then exits). -/
  | logFatalf (msg : String)
  deriving DecidableEq, Repr

/-- The state `main` threads through: the package-level `configs.Env.Port`, the
router's handler chain, and the log of effects so far. -/
structure Process where
  envPort : String
  handlers : List Middleware
  effects : List Effect
  deriving Repr

/-- State at process start: `configs.Env` holds Go zero values, no router. -/
def Process.start : Process :=
  { envPort := "", handlers := [], effects := [] }

/-- Append one effect to the log. -/
def Process.emit (w : Process) (e : Effect) : Process :=
  { w with effects := w.effects ++ [e] }

/-- Formatting of `fmt.Sprintf` / `fmt.Printf` for the verbs `main` uses, on
string operands: `%s` and `%v` are replaced by the next operand; a verb with no
operand left prints Go's `%!s(MISSING)` marker. -/
def sprintfChars : List Char → List String → List Char
  | [], _ => []
  | [c], _ => [c]
  | c :: d :: rest, args =>
    if c = '%' ∧ (d = 's' ∨ d = 'v') then
      match args with
      | a :: more => a.data ++ sprintfChars rest more
      | [] => ['%', '!', d] ++ "(MISSING)".data ++ sprintfChars rest []
    else c :: sprintfChars (d :: rest) args

/-- Go's `fmt.Sprintf(format, args...)` on string operands. -/
def Sprintf (format : String) (args : List String) : String :=
  String.mk (sprintfChars format.data args)

/-- Go's `fmt.Println(s)`: the text followed by a newline. -/
def Println (s : String) : String := s ++ "\n"

/-- Call of `configs.InitEnvConfigs()`: the package is not at hand; `loaded` is
the value it leaves in `configs.Env.Port`. -/
def InitEnvConfigs (loaded : String) (w : Process) : Process :=
  { w with envPort := loaded }.emit Effect.initEnvConfigs

/-- Call of `gin.Default()`: a fresh engine with the Logger and Recovery middleware. -/
def ginDefault (w : Process) : Process :=
  { w with handlers := [Middleware.logger, Middleware.recovery] }.emit Effect.ginDefault

/-- Call of `router.Use(mw)`: appends to the handler chain. -/
def routerUse (mw : Middleware) (w : Process) : Process :=
  { w with handlers := w.handlers ++ [mw] }.emit (Effect.routerUse mw)

/-- Call of `routes.SetupRoutes(router)`: routes are registered behind the chain the
router holds now. -/
def SetupRoutes (w : Process) : Process :=
  w.emit (Effect.setupRoutes w.handlers)

/-- Value of `cors.DefaultConfig()` of gin-contrib/cors, restricted to the three fields. -/
def corsDefaultConfig : CorsConfig :=
  { AllowOrigins := []
    AllowMethods := ["GET", "POST", "PUT", "PATCH", "DELETE", "HEAD", "OPTIONS"]
    AllowHeaders := ["Origin", "Content-Length", "Content-Type"] }

/-- Lines 27-30 of `main.go`: the CORS configuration `main` builds. -/
def config : CorsConfig :=
  { corsDefaultConfig with
    AllowOrigins := ["http://localhost:5173", "http://localhost:3000", "http://localhost:8081"]
    AllowMethods := ["GET", "POST", "PUT", "DELETE", "OPTIONS"]
    AllowHeaders := ["Origin", "Content-Type", "Accept", "Authorization"] }

/-- Lines 18-21 of `main.go`: the local `port`, from the value read. -/
def port (envPort : String) : String :=
  if envPort = "" then "9081" else envPort

/-- Line 47 of `main.go`: the local `serverAddr`. -/
def serverAddr (envPort : String) : String :=
  Sprintf "0.0.0.0:%s" [port envPort]

/-- Lines 36-44 of `main.go`: the arguments of the `fmt.Println` calls, in order. -/
def endpointLines : List String :=
  [ "📋 Available endpoints:",
    "   • Health: GET /ping",
    "   • Allocate DB: POST /allocate",
    "   • Collections: GET /collections/:db",
    "   • Schema Detection: GET /detect-schema/:db/:collection",
    "   • Documents: GET /entries/:db/:collection",
    "   • CRUD: POST|GET|PUT|DELETE /entry/:db/:collection[/:id]",
    "   • API v1: /api/v1/*",
    "   • Info: GET /" ]

/-- Lines 49-51 of `main.go`: `router.Run(addr)`; `runErr` is the error it returns,
`none` when it returns none (or keeps serving). An error is passed to
`log.Fatalf`. -/
def runServer (addr : String) (runErr : Option String) (w : Process) : Process :=
  let w1 := w.emit (Effect.routerRun addr)
  match runErr with
  | none => w1
  | some err => w1.emit (Effect.logFatalf (Sprintf "Failed to start server: %v" [err]))

/-- The function `main` of `main.go`. `loaded` is what `configs.InitEnvConfigs` leaves
in `configs.Env.Port`; `runErr` is the outcome of `router.Run`. -/
def main (loaded : String) (runErr : Option String) : Process :=
  let w := InitEnvConfigs loaded Process.start
  let envPort := w.envPort
  let w := w.emit (Effect.readEnvPort envPort)
  let w := ginDefault w
  let w := routerUse (Middleware.cors config) w
  let w := SetupRoutes w
  let w := w.emit (Effect.stdout
    (Sprintf "🚀 DB Access Service (MVC Architecture) starting on port %s\n" [port envPort]))
  let w := endpointLines.foldl (fun acc line => acc.emit (Effect.stdout (Println line))) w
  let w := w.emit (Effect.stdout (Sprintf "🚀 Starting server on %s\n" [serverAddr envPort]))
  runServer (serverAddr envPort) runErr w

/-! ### The HTTP surface of the specification and the startup announcements -/

/-- One row of the HTTP surface table: method and path. -/
structure SurfaceRow where
  method : String
  path : String
  deriving DecidableEq, Repr

/-- The HTTP surface table of the specification (section 6), row by row. -/
def specHttpSurface : List SurfaceRow :=
  [ ⟨"GET", "/ping"⟩,
    ⟨"POST", "/allocate"⟩,
    ⟨"GET", "/collections/:db"⟩,
    ⟨"GET", "/detect-schema/:db/:collection"⟩,
    ⟨"GET", "/entries/:db/:collection"⟩,
    ⟨"POST", "/entry/:db/:collection"⟩,
    ⟨"GET", "/entry/:db/:collection/:id"⟩,
    ⟨"PUT", "/entry/:db/:collection/:id"⟩,
    ⟨"DELETE", "/entry/:db/:collection/:id"⟩,
    ⟨"*", "/api/v1/*"⟩ ]

/-- Split a character list at every character satisfying `sep`. -/
def splitAt (sep : Char → Bool) : List Char → List (List Char)
  | [] => [[]]
  | c :: rest =>
    if sep c then [] :: splitAt sep rest
    else
      match splitAt sep rest with
      | [] => [[c]]
      | w :: ws => (c :: w) :: ws

/-- The words of a printed text (blanks and newlines separate them). -/
def wordsOf (text : String) : List (List Char) :=
  (splitAt (fun c => c = ' ' || c = '\n') text.data).filter (fun w => !w.isEmpty)

/-- The paths a path pattern stands for: a pattern `base[opt]rest` stands for
`base ++ rest` and `base ++ opt ++ rest`; a pattern without brackets for itself. -/
def expandOptional (pat : List Char) : List (List Char) :=
  match splitAt (fun c => c = '[') pat with
  | [base, tail] =>
    match splitAt (fun c => c = ']') tail with
    | [opt, rest] => [base ++ rest, base ++ opt ++ rest]
    | _ => [pat]
  | _ => [pat]

/-- The paths an announcement line names: its last word, optional part expanded. -/
def announcedPaths (text : String) : List (List Char) :=
  match (wordsOf text).reverse with
  | pat :: _ => expandOptional pat
  | [] => []

/-- The methods an announcement line names: the word before the path, split at
the bar. -/
def announcedMethods (text : String) : List (List Char) :=
  match (wordsOf text).reverse with
  | _ :: ms :: _ => splitAt (fun c => c = '|') ms
  | _ => []

/-- An announcement line names the method and the path. -/
def announces (text : String) (method path : String) : Bool :=
  decide (method.data ∈ announcedMethods text) && decide (path.data ∈ announcedPaths text)

/-! ### Order of effects -/

/-- Every effect satisfying `later` comes after some effect satisfying
`earlier`: scanning from the start, an `earlier` effect is met before any
`later` one. -/
def onlyAfter (earlier later : Effect → Bool) : List Effect → Bool
  | [] => true
  | e :: rest => if earlier e then true else !later e && onlyAfter earlier later rest

/-- The effects that follow the first `router.Run`. -/
def afterRun : List Effect → List Effect
  | [] => []
  | Effect.routerRun _ :: rest => rest
  | _ :: rest => afterRun rest

/-- The address of the first `router.Run` in the log, if any. -/
def runAddr : List Effect → Option String
  | [] => none
  | Effect.routerRun addr :: _ => some addr
  | _ :: rest => runAddr rest

/-- The port of a bind address on all interfaces: what follows `0.0.0.0:`. -/
def portOfAddr (addr : String) : Option String :=
  if "0.0.0.0:".data.isPrefixOf addr.data then
    some (String.mk (addr.data.drop "0.0.0.0:".data.length))
  else none

/-- The port the server is run on: the port of the address `router.Run` gets. -/
def serverPort (t : List Effect) : Option String :=
  (runAddr t).bind portOfAddr

/-- Is the effect `configs.InitEnvConfigs()`? -/
def Effect.isInit : Effect → Bool
  | Effect.initEnvConfigs => true
  | _ => false

/-- Is the effect a read of `configs.Env.Port`? -/
def Effect.isPortRead : Effect → Bool
  | Effect.readEnvPort _ => true
  | _ => false

/-- Is the effect a `router.Use` of the CORS middleware? -/
def Effect.isCorsUse : Effect → Bool
  | Effect.routerUse (Middleware.cors _) => true
  | _ => false

/-- Is the effect `routes.SetupRoutes`? -/
def Effect.isSetupRoutes : Effect → Bool
  | Effect.setupRoutes _ => true
  | _ => false

/-- Is the effect `router.Run`? -/
def Effect.isRun : Effect → Bool
  | Effect.routerRun _ => true
  | _ => false

/-- Is the middleware a CORS handler? -/
def Middleware.isCors : Middleware → Bool
  | Middleware.cors _ => true
  | _ => false

/-- The first two parts of the bootstrap order: `InitEnvConfigs` happens, and
before any read of `configs.Env.Port`; the CORS middleware is installed, and
before any `SetupRoutes`, whose routes are put behind a chain holding it. -/
def configuredInOrder (t : List Effect) : Bool :=
  t.any Effect.isPortRead && onlyAfter Effect.isInit Effect.isPortRead t &&
  t.any Effect.isSetupRoutes && onlyAfter Effect.isCorsUse Effect.isSetupRoutes t &&
  t.all (fun e =>
    match e with
    | Effect.setupRoutes chain => chain.any Middleware.isCors
    | _ => true)

/-- Is `router.Run` the last effect of the log? -/
def runIsLast (t : List Effect) : Bool :=
  match t.getLast? with
  | some e => e.isRun
  | none => false

/-- The bootstrap order as claimed: configured in order, and `router.Run` last. -/
def claimedBootstrapOrder (t : List Effect) : Bool :=
  configuredInOrder t && runIsLast t

/-! ## Part II: the Schema Inference Engine, modelled from the specification -/

/-- Modelled from the spec: the type tags of a SchemaShape (section 3); the
engine's code is not at hand. -/
inductive TypeTag where
  | string
  | integer
  | float
  | boolean
  | timestamp
  | array
  | object
  | null
  | mixed
  deriving DecidableEq, Repr

/-- Modelled from the spec: a value of a self-describing document, one
constructor per non-mixed type tag. A float is a decimal `mantissa * 10 ^ exponent`. -/
inductive Value where
  | string (s : String)
  | integer (i : Int)
  | float (mantissa : Int) (exponent : Int)
  | boolean (b : Bool)
  | timestamp (unixMillis : Int)
  | array (items : List Value)
  | object (fields : List (String × Value))
  | null

/-- Modelled from the spec: the observed type of a value. The element type of an
array is not part of the `type, optional` pair a SchemaShape holds per path and
is left out. -/
def typeOf : Value → TypeTag
  | Value.string _ => TypeTag.string
  | Value.integer _ => TypeTag.integer
  | Value.float _ _ => TypeTag.float
  | Value.boolean _ => TypeTag.boolean
  | Value.timestamp _ => TypeTag.timestamp
  | Value.array _ => TypeTag.array
  | Value.object _ => TypeTag.object
  | Value.null => TypeTag.null

/-- Modelled from the spec: a document, as its top-level fields. -/
abbrev Document := List (String × Value)

/-- Modelled from the spec: field paths are dot-separated for nesting. -/
def joinPath (parent key : String) : String :=
  if parent = "" then key else parent ++ "." ++ key

/-- Modelled from the spec: walk the fields recursively up to a bounded nesting
depth, recording the observed type of each field path; an object nested beyond
the bound is recorded as an `object` leaf and not walked. -/
def walkFields : Nat → String → List (String × Value) → List (String × TypeTag)
  | 0, parent, fields => fields.map fun kv => (joinPath parent kv.1, typeOf kv.2)
  | depth + 1, parent, fields =>
    fields.flatMap fun kv =>
      (joinPath parent kv.1, typeOf kv.2) ::
        (match kv.2 with
         | Value.object sub => walkFields depth (joinPath parent kv.1) sub
         | _ => [])

/-- Modelled from the spec: the observations (path, type) of one document. -/
def observe (maxDepth : Nat) (doc : Document) : List (String × TypeTag) :=
  walkFields maxDepth "" doc

/-- Modelled from the spec: merging two observed types of one path. Null
observations do not conflict (only distinct non-null types do); integer and
float promote to float; every other mismatch is mixed. -/
def mergeType : TypeTag → TypeTag → TypeTag
  | TypeTag.null, t => t
  | t, TypeTag.null => t
  | TypeTag.integer, TypeTag.float => TypeTag.float
  | TypeTag.float, TypeTag.integer => TypeTag.float
  | a, b => if a = b then a else TypeTag.mixed

/-- Modelled from the spec: the types observed for a path over all sampled
documents. -/
def typesAt (path : String) (obs : List (List (String × TypeTag))) : List TypeTag :=
  (obs.flatten.filter fun o => o.1 = path).map Prod.snd

/-- Modelled from the spec: the merged type of a path. -/
def mergedType (path : String) (obs : List (List (String × TypeTag))) : TypeTag :=
  (typesAt path obs).foldl mergeType TypeTag.null

/-- Modelled from the spec: is the path seen in the document's observations? -/
def hasPath (path : String) (o : List (String × TypeTag)) : Bool :=
  o.any fun e => e.1 = path

/-- Modelled from the spec: what a SchemaShape holds for one field path. -/
structure FieldInfo where
  type : TypeTag
  optional : Bool
  deriving DecidableEq, Repr

/-- Modelled from the spec: a SchemaShape, field path to type tag and optional
flag, one entry per path. -/
abbrev SchemaShape := List (String × FieldInfo)

/-- Modelled from the spec: merge the observations of the sampled documents.
Each observed path gets its merged type, and is optional unless it is seen in
every sampled document. -/
def inferSchema (maxDepth : Nat) (docs : List Document) : SchemaShape :=
  let obs := docs.map (observe maxDepth)
  ((obs.flatten.map Prod.fst).dedup).map fun path =>
    (path, { type := mergedType path obs, optional := !(obs.all (hasPath path)) })

/-- Modelled from the spec: a DatabaseHandle, by its unique name. -/
structure DatabaseHandle where
  name : String
  deriving DecidableEq, Repr

/-- Modelled from the spec: the answer of the Storage Driver Adapter when asked
for the documents of a collection, in the order the store returns them. -/
inductive StoreReply where
  | unavailable
  | timeout
  | noCollection
  | documents (docs : List Document)

/-- Modelled from the spec: the store, by database name and collection name. -/
abbrev Store := String → String → StoreReply

/-- Modelled from the spec: the errors of `DetectSchema` (section 7). -/
inductive DetectError where
  | StorageUnavailable
  | StorageTimeout
  | CollectionNotFound
  deriving DecidableEq, Repr

/-- Modelled from the spec: `DetectSchema(dbHandle, collectionName, sampleSize)`
of section 4.2, whose code is not at hand. Up to `sampleSize` documents are
fetched and merged; a collection that does not exist is `CollectionNotFound`.
The result cache is outside this model: every call samples the store. -/
def DetectSchema (store : Store) (maxDepth : Nat) (dbHandle : DatabaseHandle)
    (collectionName : String) (sampleSize : Nat) : Except DetectError SchemaShape :=
  match store dbHandle.name collectionName with
  | StoreReply.unavailable => Except.error DetectError.StorageUnavailable
  | StoreReply.timeout => Except.error DetectError.StorageTimeout
  | StoreReply.noCollection => Except.error DetectError.CollectionNotFound
  | StoreReply.documents docs => Except.ok (inferSchema maxDepth (docs.take sampleSize))

/-- Modelled from the spec: the entry a SchemaShape holds for a path, if any. -/
def fieldOf (shape : SchemaShape) (path : String) : Option FieldInfo :=
  List.lookup path shape

/-- The store used to evaluate the model: database `shop` with the collection
`orders` of the specification's scenario (section 8) after its two creates, an
empty collection `drafts`, and collections whose field mixes integer with float
(`prices`) and string with integer (`codes`). -/
def scenarioStore : Store := fun db coll =>
  if db = "shop" ∧ coll = "orders" then
    StoreReply.documents
      [[("item", Value.string "pen"), ("qty", Value.integer 3)], [("item", Value.string "pen")]]
  else if db = "shop" ∧ coll = "drafts" then StoreReply.documents []
  else if db = "shop" ∧ coll = "prices" then
    StoreReply.documents [[("amount", Value.integer 3)], [("amount", Value.float 25 (-1))]]
  else if db = "shop" ∧ coll = "codes" then
    StoreReply.documents [[("code", Value.string "A1")], [("code", Value.integer 7)]]
  else StoreReply.noCollection

/-! ## Theorems -/

/-! ### Part I: `main` -/

/-- The effects of `main`, in order, for any loaded port and outcome of `router.Run`. -/
theorem effects_main (p : String) (e : Option String) :
    (main p e).effects =
      [Effect.initEnvConfigs, Effect.readEnvPort p, Effect.ginDefault,
        Effect.routerUse (Middleware.cors config),
        Effect.setupRoutes [Middleware.logger, Middleware.recovery, Middleware.cors config],
        Effect.stdout
          (Sprintf "🚀 DB Access Service (MVC Architecture) starting on port %s\n" [port p])]
      ++ endpointLines.map (fun line => Effect.stdout (Println line))
      ++ [Effect.stdout (Sprintf "🚀 Starting server on %s\n" [serverAddr p]),
          Effect.routerRun (serverAddr p)]
      ++ (match e with
          | none => []
          | some err => [Effect.logFatalf (Sprintf "Failed to start server: %v" [err])]) := by
  cases e <;>
    simp [main, runServer, SetupRoutes, routerUse, ginDefault, InitEnvConfigs, Process.emit,
      Process.start, endpointLines]

/-- Formatting the bind address: the verb is replaced by the port. -/
theorem sprintf_addr (p : String) : Sprintf "0.0.0.0:%s" [p] = "0.0.0.0:" ++ p := by
  apply String.ext
  simp [Sprintf, sprintfChars]

/-- Formatting the start line: the verb is replaced by the address. -/
theorem sprintf_starting (a : String) :
    Sprintf "🚀 Starting server on %s\n" [a] = "🚀 Starting server on " ++ a ++ "\n" := by
  apply String.ext
  simp [Sprintf, sprintfChars]

/-- Formatting the first line printed: the verb is replaced by the port. -/
theorem sprintf_port_line (q : String) :
    Sprintf "🚀 DB Access Service (MVC Architecture) starting on port %s\n" [q] =
      "🚀 DB Access Service (MVC Architecture) starting on port " ++ q ++ "\n" := by
  apply String.ext
  simp [Sprintf, sprintfChars]

/-- The port of the address made of `0.0.0.0:` and a port is that port. -/
theorem portOfAddr_append (q : String) : portOfAddr ("0.0.0.0:" ++ q) = some q := by
  have hpre : "0.0.0.0:".data.isPrefixOf ("0.0.0.0:" ++ q).data = true := by
    rw [String.data_append, List.isPrefixOf_iff_prefix]
    exact List.prefix_append _ _
  have hdrop : ("0.0.0.0:" ++ q).data.drop "0.0.0.0:".data.length = q.data := by
    rw [String.data_append, List.drop_left]
  unfold portOfAddr
  rw [if_pos hpre, hdrop]

/-- The address of the `router.Run` call of `main` is `serverAddr`. -/
theorem runAddr_main (p : String) (e : Option String) :
    runAddr (main p e).effects = some (serverAddr p) := by
  rw [effects_main]
  cases e <;> rfl

/-- C5: for every value `p` that `configs.Env.Port` holds after `InitEnvConfigs`,
`main` reads exactly `p`, and the port the server uses (the port of the address
`main` passes to `router.Run`, which is also the port its first line prints) is
`p` when `p` is not the empty string and `"9081"` when `p` is the empty string;
hence the port used is never empty. -/
theorem main_port_fallback (p : String) (e : Option String) :
    (∀ v, Effect.readEnvPort v ∈ (main p e).effects ↔ v = p) ∧
    serverPort (main p e).effects = some (port p) ∧
    Effect.stdout ("🚀 DB Access Service (MVC Architecture) starting on port " ++ port p ++ "\n")
      ∈ (main p e).effects ∧
    (p ≠ "" → port p = p ∧ serverPort (main p e).effects = some p) ∧
    (p = "" → port p = "9081" ∧ serverPort (main p e).effects = some "9081") ∧
    port p ≠ "" ∧ serverPort (main p e).effects ≠ some "" := by
  have hport : port p ≠ "" := by
    unfold port
    split
    · decide
    · assumption
  have hserver : serverPort (main p e).effects = some (port p) := by
    unfold serverPort
    rw [runAddr_main]
    show portOfAddr (serverAddr p) = some (port p)
    rw [show serverAddr p = "0.0.0.0:" ++ port p from sprintf_addr (port p)]
    exact portOfAddr_append (port p)
  refine ⟨?_, hserver, ?_, ?_, ?_, hport, ?_⟩
  · intro v
    rw [effects_main]
    cases e <;> simp [endpointLines]
  · rw [effects_main, sprintf_port_line]
    simp
  · intro h
    have hp : port p = p := by simp [port, h]
    exact ⟨hp, by rw [hserver, hp]⟩
  · intro h
    have hp : port p = "9081" := by simp [port, h]
    exact ⟨hp, by rw [hserver, hp]⟩
  · rw [hserver]
    intro h
    exact hport (Option.some.inj h)

/-- C5, evaluated: with an empty port the server runs on 9081, with port 8080
on 8080. -/
theorem main_port_fallback_witness :
    (port "" = "9081" ∧ serverPort (main "" none).effects = some "9081") ∧
    (port "8080" = "8080" ∧ serverPort (main "8080" none).effects = some "8080") :=
  ⟨(main_port_fallback "" none).2.2.2.2.1 rfl,
   (main_port_fallback "8080" none).2.2.2.1 (by decide)⟩

/-- C6: for every configured port value, the address passed to `router.Run` is
exactly `"0.0.0.0:"` followed by the resolved port, it is the only address
`router.Run` is called with, and the `Starting server on` line printed reports
that same address. -/
theorem main_bind_address (p : String) (e : Option String) :
    serverAddr p = "0.0.0.0:" ++ port p ∧
    (∀ a, Effect.routerRun a ∈ (main p e).effects ↔ a = "0.0.0.0:" ++ port p) ∧
    Effect.stdout ("🚀 Starting server on " ++ ("0.0.0.0:" ++ port p) ++ "\n")
      ∈ (main p e).effects := by
  have haddr : serverAddr p = "0.0.0.0:" ++ port p := sprintf_addr (port p)
  refine ⟨haddr, ?_, ?_⟩
  · intro a
    rw [effects_main, haddr]
    cases e <;> simp [endpointLines]
  · rw [effects_main, sprintf_starting, haddr]
    simp

/-- C6, evaluated at the empty port and at port 8080. -/
theorem main_bind_address_witness :
    Effect.routerRun "0.0.0.0:9081" ∈ (main "" none).effects ∧
    Effect.routerRun "0.0.0.0:8080" ∈ (main "8080" none).effects :=
  ⟨((main_bind_address "" none).2.1 "0.0.0.0:9081").2 (by decide),
   ((main_bind_address "8080" none).2.1 "0.0.0.0:8080").2 (by decide)⟩

/-- Every line of `endpointLines` is printed by `main`. -/
theorem endpointLines_printed (p : String) (e : Option String) (line : String)
    (h : line ∈ endpointLines) : Effect.stdout (Println line) ∈ (main p e).effects := by
  rw [effects_main]
  simp only [List.mem_append, List.mem_map]
  exact Or.inl (Or.inl (Or.inr ⟨line, h, rfl⟩))

/-- The only CORS middleware `main` installs is built from `config`. -/
theorem corsUse_main (p : String) (e : Option String) (cfg : CorsConfig) :
    Effect.routerUse (Middleware.cors cfg) ∈ (main p e).effects ↔ cfg = config := by
  rw [effects_main]
  cases e <;> simp [endpointLines]

/-- C7: `main` installs a CORS middleware on the router, and every HTTP method
of a row of the HTTP surface table (GET, POST, PUT, DELETE: the methods of the
rows other than the wildcard alias) is in the AllowMethods list of any CORS
configuration `main` installs. -/
theorem cors_methods_cover_surface (p : String) (e : Option String) :
    (∃ cfg, Effect.routerUse (Middleware.cors cfg) ∈ (main p e).effects) ∧
    (∀ m, m ∈ ["GET", "POST", "PUT", "DELETE"] ↔
      ∃ row ∈ specHttpSurface, row.method = m ∧ m ≠ "*") ∧
    (∀ cfg, Effect.routerUse (Middleware.cors cfg) ∈ (main p e).effects →
      ∀ row ∈ specHttpSurface, row.method ≠ "*" → row.method ∈ cfg.AllowMethods) := by
  refine ⟨⟨config, (corsUse_main p e config).2 rfl⟩, ?_, ?_⟩
  · intro m
    constructor
    · intro hm
      have hall : ∀ m ∈ ["GET", "POST", "PUT", "DELETE"],
          ∃ row ∈ specHttpSurface, row.method = m ∧ m ≠ "*" := by decide
      exact hall m hm
    · rintro ⟨row, hrow, rfl, hne⟩
      have hall : ∀ row ∈ specHttpSurface, row.method ≠ "*" →
          row.method ∈ ["GET", "POST", "PUT", "DELETE"] := by decide
      exact hall row hrow hne
  · intro cfg hcfg
    rw [(corsUse_main p e cfg).1 hcfg]
    decide

/-- C7, evaluated: PUT, the method of the Update row, is allowed by the
installed configuration. -/
theorem cors_methods_cover_surface_witness : "PUT" ∈ config.AllowMethods :=
  (cors_methods_cover_surface "" none).2.2 config
    (by decide) ⟨"PUT", "/entry/:db/:collection/:id"⟩ (by decide) (by decide)

set_option maxRecDepth 100000 in
/-- Each row of the surface table with a method is named by a line of
`endpointLines`. -/
theorem surface_rows_named :
    ∀ row ∈ specHttpSurface, row.method ≠ "*" →
      ∃ line ∈ endpointLines, announces (Println line) row.method row.path = true := by
  decide

set_option maxRecDepth 100000 in
/-- The four `/entry` rows are named by the single CRUD line. -/
theorem entry_rows_named :
    ∀ row ∈ specHttpSurface, row.path.data.take 7 = "/entry/".data →
      announces (Println "   • CRUD: POST|GET|PUT|DELETE /entry/:db/:collection[/:id]")
        row.method row.path = true := by
  decide

set_option maxRecDepth 100000 in
/-- The line of the versioned alias names the path `/api/v1/*`. -/
theorem alias_named :
    "/api/v1/*".data ∈ announcedPaths (Println "   • API v1: /api/v1/*") := by
  decide

/-- C8: for every (method, path) row of the HTTP surface table, `main` prints at
startup a line naming that method and that path; the four `/entry` rows are
named by the single line `POST|GET|PUT|DELETE /entry/:db/:collection[/:id]`,
which `main` prints; and `main` prints a line naming the versioned alias
`/api/v1/*`. -/
theorem announced_endpoints_cover_surface (p : String) (e : Option String) :
    (∀ row ∈ specHttpSurface, row.method ≠ "*" →
      ∃ text, Effect.stdout text ∈ (main p e).effects ∧
        announces text row.method row.path = true) ∧
    (Effect.stdout (Println "   • CRUD: POST|GET|PUT|DELETE /entry/:db/:collection[/:id]")
        ∈ (main p e).effects ∧
      ∀ row ∈ specHttpSurface, row.path.data.take 7 = "/entry/".data →
        announces (Println "   • CRUD: POST|GET|PUT|DELETE /entry/:db/:collection[/:id]")
          row.method row.path = true) ∧
    (∃ text, Effect.stdout text ∈ (main p e).effects ∧
      "/api/v1/*".data ∈ announcedPaths text) := by
  refine ⟨?_, ⟨?_, entry_rows_named⟩, ?_⟩
  · intro row hrow hne
    obtain ⟨line, hline, hann⟩ := surface_rows_named row hrow hne
    exact ⟨Println line, endpointLines_printed p e line hline, hann⟩
  · exact endpointLines_printed p e _ (by decide)
  · exact ⟨Println "   • API v1: /api/v1/*", endpointLines_printed p e _ (by decide),
      alias_named⟩

set_option maxRecDepth 100000 in
/-- C8, evaluated: the Update row is named by a line `main` prints. -/
theorem announced_endpoints_cover_surface_witness :
    ∃ text, Effect.stdout text ∈ (main "" none).effects ∧
      announces text "PUT" "/entry/:db/:collection/:id" = true :=
  (announced_endpoints_cover_surface "" none).1 ⟨"PUT", "/entry/:db/:collection/:id"⟩
    (by decide) (by decide)

/-- C9 as stated fails: when `router.Run` returns an error (here: the port is
taken), `main` goes on to call `log.Fatalf`, so the last effect is that call
and not `router.Run`. -/
theorem bootstrap_order_counterexample :
    (main "" (some "listen tcp 0.0.0.0:9081: bind: address already in use")).effects.getLast?
        = some (Effect.logFatalf
            "Failed to start server: listen tcp 0.0.0.0:9081: bind: address already in use") ∧
    claimedBootstrapOrder
      (main "" (some "listen tcp 0.0.0.0:9081: bind: address already in use")).effects
        = false := by
  constructor
  · rw [effects_main]; decide
  · rw [effects_main]; decide

/-- C9, amended: in the effects of `main`, `configs.InitEnvConfigs` happens
before `configs.Env.Port` is read, the CORS middleware is installed with
`router.Use` before `routes.SetupRoutes` registers any route (whose handler
chain holds the CORS middleware), `router.Run` is called, and what follows
`router.Run` is nothing when it returns no error and only the `log.Fatalf` call
reporting the error when it returns one; with no error `router.Run` is the last
effect. -/
theorem bootstrap_order (p : String) (e : Option String) :
    configuredInOrder (main p e).effects = true ∧
    (main p e).effects.any Effect.isRun = true ∧
    afterRun (main p e).effects =
      (match e with
       | none => []
       | some err => [Effect.logFatalf (Sprintf "Failed to start server: %v" [err])]) ∧
    (e = none → claimedBootstrapOrder (main p e).effects = true) := by
  rw [effects_main]
  cases e with
  | none => exact ⟨rfl, rfl, rfl, fun _ => rfl⟩
  | some err => exact ⟨rfl, rfl, rfl, fun h => by cases h⟩

/-- C9, evaluated: with no error from `router.Run` the claimed order holds as
stated. -/
theorem bootstrap_order_witness :
    claimedBootstrapOrder (main "8080" none).effects = true :=
  (bootstrap_order "8080" none).2.2.2 rfl

/-! ### Part II: schema inference -/

/-- Looking a key up in a list that pairs each key with its image. -/
theorem lookup_map_pair (f : String → FieldInfo) (l : List String) (p : String) :
    List.lookup p (l.map fun q => (q, f q)) = if p ∈ l then some (f p) else none := by
  induction l with
  | nil => simp
  | cons a l ih =>
    by_cases h : p = a
    · subst h
      simp [List.lookup_cons]
    · have hb : (p == a) = false := by simpa using h
      simp [List.lookup_cons, hb, ih, h]

/-- A path is among the observed paths exactly when some document has it. -/
theorem mem_observedPaths (obs : List (List (String × TypeTag))) (p : String) :
    p ∈ (obs.flatten.map Prod.fst).dedup ↔ ∃ o ∈ obs, hasPath p o = true := by
  simp only [List.mem_dedup, List.mem_map, List.mem_flatten, hasPath, List.any_eq_true,
    decide_eq_true_eq]
  constructor
  · rintro ⟨e, ⟨o, ho, he⟩, rfl⟩
    exact ⟨o, ho, e, he, rfl⟩
  · rintro ⟨o, ho, e, he, rfl⟩
    exact ⟨e, ⟨o, ho, he⟩, rfl⟩

/-- The entry of an inferred shape for a path some sampled document has. -/
theorem fieldOf_inferSchema (maxDepth : Nat) (docs : List Document) (p : String)
    (h : ∃ d ∈ docs, hasPath p (observe maxDepth d) = true) :
    fieldOf (inferSchema maxDepth docs) p =
      some { type := mergedType p (docs.map (observe maxDepth)),
             optional := !((docs.map (observe maxDepth)).all (hasPath p)) } := by
  unfold fieldOf inferSchema
  simp only []
  rw [lookup_map_pair
    (fun path => { type := mergedType path (docs.map (observe maxDepth)),
                   optional := !((docs.map (observe maxDepth)).all (hasPath path)) })]
  rw [if_pos]
  rw [mem_observedPaths]
  obtain ⟨d, hd, hp⟩ := h
  exact ⟨observe maxDepth d, List.mem_map.2 ⟨d, hd, rfl⟩, hp⟩

/-- A type is observed for a path exactly when some document's observations
hold the pair. -/
theorem mem_typesAt (obs : List (List (String × TypeTag))) (p : String) (t : TypeTag) :
    t ∈ typesAt p obs ↔ ∃ o ∈ obs, (p, t) ∈ o := by
  simp only [typesAt, List.mem_map, List.mem_filter, List.mem_flatten, decide_eq_true_eq]
  constructor
  · rintro ⟨⟨q, t'⟩, ⟨⟨o, ho, he⟩, hq⟩, ht⟩
    simp only at hq ht
    subst hq ht
    exact ⟨o, ho, he⟩
  · rintro ⟨o, ho, he⟩
    exact ⟨(p, t), ⟨⟨o, ho, he⟩, rfl⟩, rfl⟩

/-- Merging a run of observations of one single type gives that type. -/
theorem foldl_mergeType_const (t : TypeTag) (l : List TypeTag) (acc : TypeTag)
    (hacc : acc = TypeTag.null ∨ acc = t) (hl : ∀ x ∈ l, x = t)
    (hne : l ≠ [] ∨ acc = t) : l.foldl mergeType acc = t := by
  induction l generalizing acc with
  | nil =>
    rcases hne with h | h
    · exact absurd rfl h
    · simpa using h
  | cons x l ih =>
    have hx : x = t := hl x (List.mem_cons_self _ _)
    have hstep : mergeType acc x = t := by
      rw [hx]
      rcases hacc with h | h <;> rw [h] <;> cases t <;> rfl
    simp only [List.foldl_cons, hstep]
    exact ih t (Or.inr rfl) (fun y hy => hl y (List.mem_cons_of_mem _ hy)) (Or.inr rfl)

/-- A class of type tags that merging never leaves, and that merging with `x`
enters, holds of the merge of any run of observations containing `x`. -/
theorem foldl_mergeType_class (C : TypeTag → Prop) (x : TypeTag)
    (hclosed : ∀ a t, C a → C (mergeType a t)) (henter : ∀ a, C (mergeType a x))
    (l : List TypeTag) (acc : TypeTag) (h : C acc ∨ x ∈ l) : C (l.foldl mergeType acc) := by
  induction l generalizing acc with
  | nil =>
    rcases h with h | h
    · simpa using h
    · cases h
  | cons y l ih =>
    simp only [List.foldl_cons]
    rcases h with h | h
    · exact ih _ (Or.inl (hclosed acc y h))
    · rcases List.mem_cons.1 h with h | h
      · subst h
        exact ih _ (Or.inl (henter acc))
      · exact ih _ (Or.inr h)

/-- Merging integer and float observations only, at least one of them float,
gives float. -/
theorem foldl_mergeType_numeric (l : List TypeTag) (acc : TypeTag)
    (hacc : acc = TypeTag.null ∨ acc = TypeTag.integer ∨ acc = TypeTag.float)
    (hl : ∀ x ∈ l, x = TypeTag.integer ∨ x = TypeTag.float)
    (hf : acc = TypeTag.float ∨ TypeTag.float ∈ l) :
    l.foldl mergeType acc = TypeTag.float := by
  induction l generalizing acc with
  | nil =>
    rcases hf with h | h
    · simpa using h
    · cases h
  | cons y l ih =>
    simp only [List.foldl_cons]
    have hy := hl y (List.mem_cons_self _ _)
    have hl2 : ∀ x ∈ l, x = TypeTag.integer ∨ x = TypeTag.float :=
      fun x hx => hl x (List.mem_cons_of_mem _ hx)
    apply ih _ _ hl2
    · rcases hf with h | h
      · left
        subst h
        rcases hy with h | h <;> subst h <;> rfl
      · rcases List.mem_cons.1 h with h | h
        · left
          subst h
          rcases hacc with h | h | h <;> subst h <;> rfl
        · exact Or.inr h
    · rcases hacc with h | h | h <;> subst h <;> rcases hy with h | h <;> subst h <;> simp [mergeType]

/-- C1: for every non-empty set of sampled documents and every field path, if
the path is present in every sampled document with one consistent type then
the SchemaShape returned by DetectSchema holds it with that type and
optional=false, and if the path is present in some sampled document and absent
from at least one then the SchemaShape holds it with optional=true. -/
theorem detectSchema_optionality (store : Store) (maxDepth : Nat) (db : DatabaseHandle)
    (coll : String) (sampleSize : Nat) (docs : List Document)
    (hstore : store db.name coll = StoreReply.documents docs)
    (hne : docs.take sampleSize ≠ []) (p : String) :
    ∃ shape, DetectSchema store maxDepth db coll sampleSize = Except.ok shape ∧
      (∀ t, (∀ d ∈ docs.take sampleSize, hasPath p (observe maxDepth d) = true ∧
              ∀ o ∈ observe maxDepth d, o.1 = p → o.2 = t) →
        fieldOf shape p = some { type := t, optional := false }) ∧
      ((∃ d ∈ docs.take sampleSize, hasPath p (observe maxDepth d) = true) →
        (∃ d ∈ docs.take sampleSize, hasPath p (observe maxDepth d) = false) →
        ∃ info, fieldOf shape p = some info ∧ info.optional = true) := by
  refine ⟨inferSchema maxDepth (docs.take sampleSize), ?_, ?_, ?_⟩
  · simp [DetectSchema, hstore]
  · intro t h
    obtain ⟨d0, hd0⟩ := List.exists_mem_of_ne_nil _ hne
    rw [fieldOf_inferSchema maxDepth _ p ⟨d0, hd0, (h d0 hd0).1⟩]
    have hall : ((docs.take sampleSize).map (observe maxDepth)).all (hasPath p) = true := by
      simp only [List.all_eq_true, List.mem_map]
      rintro o ⟨d, hd, rfl⟩
      exact (h d hd).1
    have htypes : ∀ x ∈ typesAt p ((docs.take sampleSize).map (observe maxDepth)), x = t := by
      intro x hx
      obtain ⟨o, ho, hmem⟩ := (mem_typesAt _ p x).1 hx
      obtain ⟨d, hd, rfl⟩ := List.mem_map.1 ho
      exact (h d hd).2 (p, x) hmem rfl
    have hnonempty : typesAt p ((docs.take sampleSize).map (observe maxDepth)) ≠ [] := by
      have h0 := (h d0 hd0).1
      simp only [hasPath, List.any_eq_true, decide_eq_true_eq] at h0
      obtain ⟨⟨q, t0⟩, hmem, hq⟩ := h0
      simp only at hq
      subst hq
      have : t0 ∈ typesAt q ((docs.take sampleSize).map (observe maxDepth)) :=
        (mem_typesAt _ q t0).2 ⟨observe maxDepth d0, List.mem_map.2 ⟨d0, hd0, rfl⟩, hmem⟩
      exact List.ne_nil_of_mem this
    have hmerged : mergedType p ((docs.take sampleSize).map (observe maxDepth)) = t :=
      foldl_mergeType_const t _ TypeTag.null (Or.inl rfl) htypes (Or.inl hnonempty)
    rw [hmerged, hall]
    rfl
  · intro hsome habsent
    rw [fieldOf_inferSchema maxDepth _ p hsome]
    refine ⟨_, rfl, ?_⟩
    obtain ⟨d, hd, hfalse⟩ := habsent
    have hall : ((docs.take sampleSize).map (observe maxDepth)).all (hasPath p) = false := by
      rw [List.all_eq_false]
      exact ⟨observe maxDepth d, List.mem_map.2 ⟨d, hd, rfl⟩, by simp [hfalse]⟩
    rw [hall]
    rfl

/-- C1, evaluated on the scenario's `orders` collection: `item`, present in both
documents as a string, is required; `qty`, absent from the second, is optional. -/
theorem detectSchema_optionality_witness :
    (∃ shape, DetectSchema scenarioStore 4 ⟨"shop"⟩ "orders" 100 = Except.ok shape ∧
      fieldOf shape "item" = some { type := TypeTag.string, optional := false }) ∧
    (∃ shape, DetectSchema scenarioStore 4 ⟨"shop"⟩ "orders" 100 = Except.ok shape ∧
      ∃ info, fieldOf shape "qty" = some info ∧ info.optional = true) := by
  constructor
  · obtain ⟨shape, hok, hreq, _⟩ :=
      detectSchema_optionality scenarioStore 4 ⟨"shop"⟩ "orders" 100
        [[("item", Value.string "pen"), ("qty", Value.integer 3)], [("item", Value.string "pen")]]
        rfl (by simp) "item"
    exact ⟨shape, hok, hreq TypeTag.string (by decide)⟩
  · obtain ⟨shape, hok, _, hopt⟩ :=
      detectSchema_optionality scenarioStore 4 ⟨"shop"⟩ "orders" 100
        [[("item", Value.string "pen"), ("qty", Value.integer 3)], [("item", Value.string "pen")]]
        rfl (by simp) "qty"
    exact ⟨shape, hok, hopt (by decide) (by decide)⟩

/-- C2: for every set of sampled documents in which a field path is observed
only with integer and float values, at least one of each, the type tag that the
SchemaShape returned by DetectSchema holds for the path is float, and so is not
mixed. -/
theorem integer_float_promote_to_float (store : Store) (maxDepth : Nat) (db : DatabaseHandle)
    (coll : String) (sampleSize : Nat) (docs : List Document)
    (hstore : store db.name coll = StoreReply.documents docs) (p : String)
    (honly : ∀ d ∈ docs.take sampleSize, ∀ o ∈ observe maxDepth d, o.1 = p →
      o.2 = TypeTag.integer ∨ o.2 = TypeTag.float)
    (_hint : ∃ d ∈ docs.take sampleSize, (p, TypeTag.integer) ∈ observe maxDepth d)
    (hfloat : ∃ d ∈ docs.take sampleSize, (p, TypeTag.float) ∈ observe maxDepth d) :
    ∃ shape info, DetectSchema store maxDepth db coll sampleSize = Except.ok shape ∧
      fieldOf shape p = some info ∧ info.type = TypeTag.float ∧ info.type ≠ TypeTag.mixed := by
  obtain ⟨d1, hd1, hmem1⟩ := hfloat
  have hpresent : ∃ d ∈ docs.take sampleSize, hasPath p (observe maxDepth d) = true := by
    refine ⟨d1, hd1, ?_⟩
    simp only [hasPath, List.any_eq_true, decide_eq_true_eq]
    exact ⟨(p, TypeTag.float), hmem1, rfl⟩
  have hmerged : mergedType p ((docs.take sampleSize).map (observe maxDepth)) = TypeTag.float := by
    apply foldl_mergeType_numeric _ _ (Or.inl rfl)
    · intro x hx
      obtain ⟨o, ho, hmem⟩ := (mem_typesAt _ p x).1 hx
      obtain ⟨d, hd, rfl⟩ := List.mem_map.1 ho
      exact honly d hd (p, x) hmem rfl
    · right
      exact (mem_typesAt _ p _).2 ⟨observe maxDepth d1, List.mem_map.2 ⟨d1, hd1, rfl⟩, hmem1⟩
  refine ⟨inferSchema maxDepth (docs.take sampleSize), _, ?_,
    fieldOf_inferSchema maxDepth _ p hpresent, hmerged, ?_⟩
  · simp [DetectSchema, hstore]
  · simp only [hmerged]
    decide

/-- C2, evaluated on the `prices` collection: `amount` is 3 in one document and
2.5 in the other, and is tagged float. -/
theorem integer_float_promote_to_float_witness :
    ∃ shape info, DetectSchema scenarioStore 4 ⟨"shop"⟩ "prices" 100 = Except.ok shape ∧
      fieldOf shape "amount" = some info ∧ info.type = TypeTag.float ∧
      info.type ≠ TypeTag.mixed :=
  integer_float_promote_to_float scenarioStore 4 ⟨"shop"⟩ "prices" 100
    [[("amount", Value.integer 3)], [("amount", Value.float 25 (-1))]]
    rfl "amount" (by decide) (by decide) (by decide)

/-- C3: for every set of sampled documents in which a field path is observed
with a string value in one document and an integer value in another, the type
tag that the SchemaShape returned by DetectSchema holds for the path is mixed:
neither string nor integer. -/
theorem string_integer_conflict_is_mixed (store : Store) (maxDepth : Nat)
    (db : DatabaseHandle) (coll : String) (sampleSize : Nat) (docs : List Document)
    (hstore : store db.name coll = StoreReply.documents docs) (p : String)
    (hstr : ∃ d ∈ docs.take sampleSize, (p, TypeTag.string) ∈ observe maxDepth d)
    (hint : ∃ d ∈ docs.take sampleSize, (p, TypeTag.integer) ∈ observe maxDepth d) :
    ∃ shape info, DetectSchema store maxDepth db coll sampleSize = Except.ok shape ∧
      fieldOf shape p = some info ∧ info.type = TypeTag.mixed ∧
      info.type ≠ TypeTag.string ∧ info.type ≠ TypeTag.integer := by
  obtain ⟨d1, hd1, hmem1⟩ := hstr
  obtain ⟨d2, hd2, hmem2⟩ := hint
  have hpresent : ∃ d ∈ docs.take sampleSize, hasPath p (observe maxDepth d) = true := by
    refine ⟨d1, hd1, ?_⟩
    simp only [hasPath, List.any_eq_true, decide_eq_true_eq]
    exact ⟨(p, TypeTag.string), hmem1, rfl⟩
  have hS : (fun t => t = TypeTag.string ∨ t = TypeTag.mixed)
      (mergedType p ((docs.take sampleSize).map (observe maxDepth))) := by
    refine foldl_mergeType_class (fun t => t = TypeTag.string ∨ t = TypeTag.mixed)
      TypeTag.string ?_ ?_ _ TypeTag.null (Or.inr ?_)
    · intro a t ha
      rcases ha with h | h <;> subst h <;> cases t <;> simp [mergeType]
    · intro a
      cases a <;> simp [mergeType]
    · exact (mem_typesAt _ p _).2 ⟨observe maxDepth d1, List.mem_map.2 ⟨d1, hd1, rfl⟩, hmem1⟩
  have hN : (fun t => t = TypeTag.integer ∨ t = TypeTag.float ∨ t = TypeTag.mixed)
      (mergedType p ((docs.take sampleSize).map (observe maxDepth))) := by
    refine foldl_mergeType_class
      (fun t => t = TypeTag.integer ∨ t = TypeTag.float ∨ t = TypeTag.mixed)
      TypeTag.integer ?_ ?_ _ TypeTag.null (Or.inr ?_)
    · intro a t ha
      rcases ha with h | h | h <;> subst h <;> cases t <;> simp [mergeType]
    · intro a
      cases a <;> simp [mergeType]
    · exact (mem_typesAt _ p _).2 ⟨observe maxDepth d2, List.mem_map.2 ⟨d2, hd2, rfl⟩, hmem2⟩
  have hmerged : mergedType p ((docs.take sampleSize).map (observe maxDepth)) = TypeTag.mixed := by
    simp only at hS hN
    rcases hS with h | h
    · rw [h] at hN
      simp at hN
    · exact h
  refine ⟨inferSchema maxDepth (docs.take sampleSize), _, ?_,
    fieldOf_inferSchema maxDepth _ p hpresent, hmerged, ?_, ?_⟩
  · simp [DetectSchema, hstore]
  · simp only [hmerged]
    decide
  · simp only [hmerged]
    decide

/-- C3, evaluated on the `codes` collection: `code` is a string in one document
and an integer in the other, and is tagged mixed. -/
theorem string_integer_conflict_is_mixed_witness :
    ∃ shape info, DetectSchema scenarioStore 4 ⟨"shop"⟩ "codes" 100 = Except.ok shape ∧
      fieldOf shape "code" = some info ∧ info.type = TypeTag.mixed ∧
      info.type ≠ TypeTag.string ∧ info.type ≠ TypeTag.integer :=
  string_integer_conflict_is_mixed scenarioStore 4 ⟨"shop"⟩ "codes" 100
    [[("code", Value.string "A1")], [("code", Value.integer 7)]]
    rfl "code" (by decide) (by decide)

/-- C4: DetectSchema on a collection that exists but holds zero documents
returns a successful result, not an error, and its SchemaShape has no field
path. -/
theorem detectSchema_empty_collection (store : Store) (maxDepth : Nat) (db : DatabaseHandle)
    (coll : String) (sampleSize : Nat)
    (hstore : store db.name coll = StoreReply.documents []) :
    DetectSchema store maxDepth db coll sampleSize = Except.ok [] ∧
    ∀ shape, DetectSchema store maxDepth db coll sampleSize = Except.ok shape →
      ∀ p, fieldOf shape p = none := by
  have hok : DetectSchema store maxDepth db coll sampleSize = Except.ok [] := by
    simp [DetectSchema, hstore, inferSchema]
  refine ⟨hok, ?_⟩
  intro shape hshape p
  rw [hok] at hshape
  cases hshape
  rfl

/-- C4, evaluated on the scenario's empty collection `drafts`. -/
theorem detectSchema_empty_collection_witness :
    DetectSchema scenarioStore 4 ⟨"shop"⟩ "drafts" 100 = Except.ok [] :=
  (detectSchema_empty_collection scenarioStore 4 ⟨"shop"⟩ "drafts" 100 rfl).1

end UniversalPanel
